import Mathlib

/-!
# QueryVault frontend — verification of the navigation/synchronization core

A shallow embedding of the stateful core of the QueryVault client
(React frontend of a RAG question-answering tool), together with proofs
about its behavior:

* `PDFViewerState` / `setPageCommand` / `onDocumentLoadSuccess` — the
  Document content viewer (`frontend/src/components/viewers/PDFViewer.jsx`),
* `PlayerState` / `seekTo` / `SessionState` / `handleSourceNavigate` — the
  Stream content viewer (`YouTubePlayer`) and the navigation coordinator
  (`frontend/src/pages/SplitViewChat.jsx`),
* `ChatState` / `handleSend` — the transcript store (`ChatContainer`),
* `Bookmark` / `addBookmark` / `removeBookmark` — the bookmark store
  (`frontend/src/contexts/BookmarkContext.jsx`),
* `SplitViewState` / `splitStep` — the resizable split surface (`SplitView`).

State variables are modelled one-to-one with the React `useState` cells of
the corresponding component; each event handler becomes a pure function on
the state. JavaScript numbers that hold page counts and clock readings are
modelled as `Int`/`Nat`; fractional quantities (seek timestamps, panel
width percentages) as `ℚ`.
-/

namespace QueryVault

/-! ## Citations

The tagged union of source citations, as produced by `SourceCard.handleClick`:
a PDF source yields `{type: 'pdf', page, filename}` and a YouTube source
yields `{type: 'youtube', timestamp, videoUrl}`.
-/

/-- A citation dispatched to `onNavigate` by `SourceCard.handleClick`. -/
inductive Citation where
  | doc (page : Int) (filename : String)
  | stream (timestamp : ℚ) (videoUrl : String)
  deriving DecidableEq

/-! ## Document viewer (`PDFViewer.jsx`)

React state cells: `numPages` (null until the document loads),
`pageNumber`, `loading`, `error`.  The external page-set command surface is
the `initialPage` prop: the effect
`useEffect(() => { if (initialPage && initialPage !== pageNumber) setPageNumber(initialPage) }, [initialPage])`
runs whenever the parent commits a new page via `setCurrentPage`.
-/

/-- State of the mounted `PDFViewer` component. -/
structure PDFViewerState where
  numPages : Option Int
  pageNumber : Int
  loading : Bool
  error : Option String
  deriving DecidableEq

/-- The external page-set command: the `initialPage` effect of `PDFViewer`.
`initialPage && initialPage !== pageNumber` — a falsy (zero) page or a page
equal to the current one leaves the state alone; any other page is committed
unconditionally (the effect performs no range check against `numPages`). -/
def setPageCommand (s : PDFViewerState) (n : Int) : PDFViewerState :=
  if n ≠ 0 ∧ n ≠ s.pageNumber then { s with pageNumber := n } else s

/-- `onDocumentLoadSuccess({numPages})`: records the page count, clears the
loading flag and any error. -/
def onDocumentLoadSuccess (s : PDFViewerState) (np : Int) : PDFViewerState :=
  { s with numPages := some np, loading := false, error := none }

/-- `onDocumentLoadError`: stores the fixed error text and clears loading. -/
def onDocumentLoadError (s : PDFViewerState) : PDFViewerState :=
  { s with error := some "Failed to load PDF. Please try again.", loading := false }

/-- The viewer state as mounted: `numPages = null`, `pageNumber = initialPage`,
`loading = true`, `error = null`. -/
def pdfViewerInit (initialPage : Int) : PDFViewerState :=
  { numPages := none, pageNumber := initialPage, loading := true, error := none }

/-- Nonzero pages are always committed by the command effect. -/
theorem setPageCommand_page_of_ne_zero (s : PDFViewerState) (n : Int) (h : n ≠ 0) :
    (setPageCommand s n).pageNumber = n := by
  unfold setPageCommand
  by_cases h2 : n = s.pageNumber
  · simp [h2]
  · simp [h, h2]

/-- The command effect never touches the loading flag. -/
theorem setPageCommand_loading (s : PDFViewerState) (n : Int) :
    (setPageCommand s n).loading = s.loading := by
  unfold setPageCommand
  split <;> rfl

/-- A loaded viewer showing page 1 of a 5-page document. -/
def pdfLoadedFive : PDFViewerState :=
  { numPages := some 5, pageNumber := 1, loading := false, error := none }

/-- C1 counterexample: with a loaded 5-page document on page 1, the external
page command with the out-of-range page 7 does not leave the current page
unchanged — it commits 7. -/
theorem setPage_out_of_range_commits :
    pdfLoadedFive.numPages = some 5 ∧
    ¬ (1 ≤ (7 : Int) ∧ (7 : Int) ≤ 5) ∧
    (setPageCommand pdfLoadedFive 7).pageNumber = 7 ∧
    (setPageCommand pdfLoadedFive 7).pageNumber ≠ pdfLoadedFive.pageNumber := by
  decide

/-- C1 (amended): for every viewer state, the external page command commits
any nonzero requested page — in particular every in-range page `1 ≤ n ≤
totalPages` — and leaves the state unchanged exactly when the request is `0`
(the only falsy page value); no call errors. Out-of-range nonzero pages are
committed rather than ignored. -/
theorem setPage_policy (s : PDFViewerState) (n : Int) :
    (n ≠ 0 → (setPageCommand s n).pageNumber = n) ∧
    (n = 0 → setPageCommand s n = s) := by
  constructor
  · intro h
    exact setPageCommand_page_of_ne_zero s n h
  · intro h
    simp [setPageCommand, h]

/-- Witness for `setPage_policy` at a concrete state and page. -/
theorem setPage_policy_witness :
    (setPageCommand pdfLoadedFive 3).pageNumber = 3 ∧ setPageCommand pdfLoadedFive 0 = pdfLoadedFive :=
  ⟨(setPage_policy pdfLoadedFive 3).1 (by decide), (setPage_policy pdfLoadedFive 0).2 rfl⟩

/-- A freshly mounted viewer (still loading) on page 1. -/
def pdfLoadingInit : PDFViewerState := pdfViewerInit 1

/-- C4 counterexample: a page command issued before the document has loaded
is not buffered — it takes effect immediately: the current page becomes 3
while `loading` is still `true` and no load-completion event has occurred. -/
theorem setPage_before_load_applies_immediately :
    pdfLoadingInit.loading = true ∧
    pdfLoadingInit.pageNumber = 1 ∧
    (setPageCommand pdfLoadingInit 3).pageNumber = 3 ∧
    (setPageCommand pdfLoadingInit 3).loading = true := by
  decide

/-- C4 (amended): page commands issued before load completion apply
immediately (latest-wins, a newer request overwrites an older one, no
queueing of intermediate pages): after any sequence of commands ending in a
nonzero page `n`, the current page is `n` both before and after
`onDocumentLoadSuccess`, which itself never changes the page. -/
theorem setPage_preload_latest_wins (s : PDFViewerState) (ns : List Int) (n : Int)
    (np : Int) (h : n ≠ 0) :
    ((ns ++ [n]).foldl setPageCommand s).pageNumber = n ∧
    (onDocumentLoadSuccess ((ns ++ [n]).foldl setPageCommand s) np).pageNumber = n ∧
    (onDocumentLoadSuccess ((ns ++ [n]).foldl setPageCommand s) np).loading = false := by
  have hfold : ((ns ++ [n]).foldl setPageCommand s).pageNumber = n := by
    rw [List.foldl_append]
    exact setPageCommand_page_of_ne_zero _ n h
  refine ⟨hfold, ?_, rfl⟩
  simpa [onDocumentLoadSuccess] using hfold

/-- Witness for `setPage_preload_latest_wins`: commands 2 then 6 before a
9-page load; the page is 6 before and after load completion. -/
theorem setPage_preload_latest_wins_witness :
    (([2] ++ [6]).foldl setPageCommand pdfLoadingInit).pageNumber = 6 ∧
    (onDocumentLoadSuccess (([2] ++ [6]).foldl setPageCommand pdfLoadingInit) 9).pageNumber = 6 ∧
    (onDocumentLoadSuccess (([2] ++ [6]).foldl setPageCommand pdfLoadingInit) 9).loading = false :=
  setPage_preload_latest_wins pdfLoadingInit [2] 6 9 (by decide)

/-! ## Stream viewer (`YouTubePlayer`) and the navigation coordinator
(`SplitViewChat.handleSourceNavigate`)

The underlying YouTube player is reachable only through
`youtubePlayerRef.current`, which the `YouTubePlayer` component populates
(via its `onTimeUpdate` effect) only once the player has reported ready;
`seekTo` additionally guards with `if (!player) return`.  Both guards
collapse to one `Option`: `none` before readiness, `some` after.
-/

/-- Observable state of the ready underlying player. -/
structure PlayerState where
  position : ℚ
  playing : Bool
  deriving DecidableEq

/-- `YouTubePlayer.seekTo(timestamp)`: `if (!player) return;
player.seekTo(timestamp); player.playVideo();` — dropped before readiness,
otherwise moves the position and resumes playback. -/
def seekTo : Option PlayerState → ℚ → Option PlayerState
  | none, _ => none
  | some _, t => some { position := t, playing := true }

/-- `SPLIT_VIEW_MODES`: which content viewer variant the session mounted. -/
inductive ContentMode where
  | pdf
  | youtube
  deriving DecidableEq

/-- The session-level state that `handleSourceNavigate` can reach:
the `mode` from the route state, the `currentPage` cell of `SplitViewChat`,
and the player handle (`none` until the player reports ready). -/
structure SessionState where
  mode : ContentMode
  currentPage : Int
  player : Option PlayerState
  deriving DecidableEq

/-- `SplitViewChat.handleSourceNavigate(source)`: a pdf citation in PDF mode
commits its page via `setCurrentPage`; a youtube citation in YouTube mode
seeks the player (if the handle is set); every other combination falls
through with no effect. -/
def handleSourceNavigate (s : SessionState) (c : Citation) : SessionState :=
  match c with
  | .doc p _ => if s.mode = .pdf then { s with currentPage := p } else s
  | .stream t _ => if s.mode = .youtube then { s with player := seekTo s.player t } else s

/-- The `onReady` event of the underlying player: the handle becomes
available; the player sits at its configured start position, paused
(`autoplay: 0`; `onReady` seeks to `initialTimestamp` when positive). -/
def playerReady (s : SessionState) (t0 : ℚ) : SessionState :=
  { s with player := some { position := t0, playing := false } }

/-- C3: a citation whose variant does not match the session's content kind
is a silent no-op: a document citation during a YouTube session, or a
stream citation during a PDF session, leaves the whole session state
(current page and player alike) unchanged. -/
theorem navigate_mismatch_noop (s : SessionState) (p : Int) (f : String)
    (t : ℚ) (u : String) :
    (s.mode = .youtube → handleSourceNavigate s (.doc p f) = s) ∧
    (s.mode = .pdf → handleSourceNavigate s (.stream t u) = s) := by
  constructor
  · intro h
    simp [handleSourceNavigate, h]
  · intro h
    simp [handleSourceNavigate, h]

/-- Witness for `navigate_mismatch_noop`: a document citation arriving in a
YouTube session and a stream citation arriving in a PDF session. -/
theorem navigate_mismatch_noop_witness :
    (handleSourceNavigate ⟨.youtube, 1, none⟩ (.doc 7 "a.pdf") = ⟨.youtube, 1, none⟩) ∧
    (handleSourceNavigate ⟨.pdf, 1, none⟩ (.stream 125 "u") = ⟨.pdf, 1, none⟩) :=
  ⟨(navigate_mismatch_noop ⟨.youtube, 1, none⟩ 7 "a.pdf" 125 "u").1 rfl,
   (navigate_mismatch_noop ⟨.pdf, 1, none⟩ 7 "a.pdf" 125 "u").2 rfl⟩

/-- C6: a seek issued before the player has reported ready is dropped, not
queued: the session state is unchanged (no position, no play state, no
crash), and once the player later becomes ready the state is exactly what
it would have been had the seek never been issued (nothing is replayed). -/
theorem seek_before_ready_dropped (s : SessionState) (t : ℚ) (u : String)
    (h : s.player = none) :
    handleSourceNavigate s (.stream t u) = s ∧
    ∀ t0 : ℚ, playerReady (handleSourceNavigate s (.stream t u)) t0 = playerReady s t0 := by
  have hnav : handleSourceNavigate s (.stream t u) = s := by
    by_cases hm : s.mode = .youtube
    · obtain ⟨m, cp, pl⟩ := s
      subst h hm
      simp [handleSourceNavigate, seekTo]
    · simp [handleSourceNavigate, hm]
  exact ⟨hnav, fun t0 => by rw [hnav]⟩

/-- Witness for `seek_before_ready_dropped`: a pre-ready seek to 125 in a
YouTube session has no effect and is not replayed at readiness. -/
theorem seek_before_ready_dropped_witness :
    handleSourceNavigate ⟨.youtube, 1, none⟩ (.stream 125 "u") = ⟨.youtube, 1, none⟩ ∧
    playerReady (handleSourceNavigate ⟨.youtube, 1, none⟩ (.stream 125 "u")) 0 =
      playerReady ⟨.youtube, 1, none⟩ 0 :=
  ⟨(seek_before_ready_dropped ⟨.youtube, 1, none⟩ 125 "u" rfl).1,
   (seek_before_ready_dropped ⟨.youtube, 1, none⟩ 125 "u" rfl).2 0⟩

/-- C7: a seek on a ready player always moves the position to the requested
timestamp and puts the player in the playing state (`seekTo` then
`playVideo`): resume-playback, never a passive cue. -/
theorem seek_after_ready (pl : PlayerState) (t : ℚ) :
    seekTo (some pl) t = some { position := t, playing := true } :=
  rfl

/-! ## Resizable split surface (`SplitView`)

State cells: `leftWidth` (a percentage, initially `defaultLeftWidth`) and
`isDragging` (initially `false`).  `onMouseDown` on the divider starts a
drag; a document-level `mouseup` ends it; while dragging, each `mousemove`
recomputes the left width from the pointer position and commits it only
when it lies within `[minWidth, maxWidth]`.  The pointer-derived percentage
`((e.clientX - rect.left) / rect.width) * 100` is taken as the event's
input.
-/

/-- State of the `SplitView` component. -/
structure SplitViewState where
  leftWidth : ℚ
  isDragging : Bool
  deriving DecidableEq

/-- The pointer events the split surface reacts to; `mouseMove w` carries
the left-width percentage computed from the pointer position. -/
inductive SplitEvent where
  | mouseDown
  | mouseUp
  | mouseMove (w : ℚ)
  deriving DecidableEq

/-- One step of the split surface: `onMouseDown={() => setIsDragging(true)}`,
`handleMouseUp` clears the flag, and `handleMouseMove` commits the computed
width only when `newWidth >= minWidth && newWidth <= maxWidth` (the handler
also returns at once unless a drag is in progress). -/
def splitStep (minW maxW : ℚ) (s : SplitViewState) : SplitEvent → SplitViewState
  | .mouseDown => { s with isDragging := true }
  | .mouseUp => { s with isDragging := false }
  | .mouseMove w =>
      if s.isDragging then
        if minW ≤ w ∧ w ≤ maxW then { s with leftWidth := w } else s
      else s

/-- The split surface as mounted with a given `defaultLeftWidth`. -/
def splitViewInit (d : ℚ) : SplitViewState := { leftWidth := d, isDragging := false }

/-- Every single event preserves the width bounds. -/
theorem splitStep_bounds (minW maxW : ℚ) (s : SplitViewState) (e : SplitEvent)
    (h1 : minW ≤ s.leftWidth) (h2 : s.leftWidth ≤ maxW) :
    minW ≤ (splitStep minW maxW s e).leftWidth ∧ (splitStep minW maxW s e).leftWidth ≤ maxW := by
  cases e with
  | mouseDown => exact ⟨h1, h2⟩
  | mouseUp => exact ⟨h1, h2⟩
  | mouseMove w =>
      unfold splitStep
      by_cases hd : s.isDragging
      · by_cases hw : minW ≤ w ∧ w ≤ maxW
        · simp [hd, hw]
        · simp [hd, hw, h1, h2]
      · simp [hd, h1, h2]

/-- Bounds are preserved by any event sequence. -/
theorem splitFold_bounds (minW maxW : ℚ) (es : List SplitEvent) (s : SplitViewState)
    (h1 : minW ≤ s.leftWidth) (h2 : s.leftWidth ≤ maxW) :
    minW ≤ (es.foldl (splitStep minW maxW) s).leftWidth ∧
    (es.foldl (splitStep minW maxW) s).leftWidth ≤ maxW := by
  induction es generalizing s with
  | nil => exact ⟨h1, h2⟩
  | cons e es ih =>
      obtain ⟨h1', h2'⟩ := splitStep_bounds minW maxW s e h1 h2
      exact ih _ h1' h2'

/-- C9: while dragging, a pointer move commits the computed width exactly
when it lies within `[minWidth, maxWidth]` and otherwise retains the
previous width unchanged (no clamping to the bound edge); consequently,
starting from a `defaultLeftWidth` within bounds, the left width stays
within `[minWidth, maxWidth]` after every sequence of events. -/
theorem splitView_width_invariant (minW maxW d : ℚ) (es : List SplitEvent)
    (hd1 : minW ≤ d) (hd2 : d ≤ maxW) :
    (∀ s : SplitViewState, ∀ w : ℚ, s.isDragging = true →
      ((minW ≤ w ∧ w ≤ maxW) → (splitStep minW maxW s (.mouseMove w)).leftWidth = w) ∧
      (¬ (minW ≤ w ∧ w ≤ maxW) → (splitStep minW maxW s (.mouseMove w)).leftWidth = s.leftWidth)) ∧
    minW ≤ (es.foldl (splitStep minW maxW) (splitViewInit d)).leftWidth ∧
    (es.foldl (splitStep minW maxW) (splitViewInit d)).leftWidth ≤ maxW := by
  refine ⟨?_, splitFold_bounds minW maxW es (splitViewInit d) hd1 hd2⟩
  intro s w hdrag
  constructor
  · intro hw
    simp [splitStep, hdrag, hw]
  · intro hw
    simp [splitStep, hdrag, hw]

/-- Witness for `splitView_width_invariant`: the shipped configuration
`minWidth = 30`, `maxWidth = 70`, `defaultLeftWidth = 50`, with a drag that
tries to move to 80 (rejected, width retained at 50) and to 60 (accepted);
after the whole sequence the width stays within bounds. -/
theorem splitView_width_invariant_witness :
    (30 : ℚ) ≤ (([.mouseDown, .mouseMove 80, .mouseMove 60].foldl (splitStep 30 70)
      (splitViewInit 50)).leftWidth) ∧
    (([.mouseDown, .mouseMove 80, .mouseMove 60].foldl (splitStep 30 70)
      (splitViewInit 50)).leftWidth) ≤ 70 ∧
    (splitStep 30 70 ⟨50, true⟩ (.mouseMove 60)).leftWidth = 60 ∧
    (splitStep 30 70 ⟨50, true⟩ (.mouseMove 80)).leftWidth = 50 :=
  have h := splitView_width_invariant 30 70 50 [.mouseDown, .mouseMove 80, .mouseMove 60]
    (by norm_num) (by norm_num)
  ⟨h.2.1, h.2.2,
   (h.1 ⟨50, true⟩ 60 rfl).1 (by norm_num),
   (h.1 ⟨50, true⟩ 80 rfl).2 (by norm_num)⟩

/-! ## Transcript store (`ChatContainer`)

State cells: `messages` (the ordered log) and `loading`.
`handleSend(question)` appends a user message with `id: Date.now()`, sets
`loading`, awaits `queryDocuments`, then appends either the assistant
message or (on failure) a synthetic error message, each with
`id: Date.now() + 1` read at completion time, and finally clears `loading`.
The two `Date.now()` readings of one exchange are modelled as the
exchange's `sendTime` and `doneTime` (in milliseconds, non-decreasing over
real time). -/

/-- `message.role`. -/
inductive Role where
  | user
  | assistant
  deriving DecidableEq

/-- A transcript message, with the fields `handleSend` populates. The
`question` field is present only on successful assistant messages. -/
structure Msg where
  id : Nat
  role : Role
  content : String
  question : Option String
  sources : List Citation
  deriving DecidableEq

/-- State of the `ChatContainer` component. -/
structure ChatState where
  messages : List Msg
  loading : Bool
  deriving DecidableEq

/-- Outcome of the awaited `queryDocuments` call. -/
inductive QueryOutcome where
  | success (answer : String) (sources : List Citation)
  | failure (errMessage : String)
  deriving DecidableEq

/-- One complete `handleSend` exchange: the question, the `Date.now()`
reading when it was sent, the `Date.now()` reading when the service call
settled, and the outcome. -/
structure AskRun where
  question : String
  sendTime : Nat
  doneTime : Nat
  outcome : QueryOutcome
  deriving DecidableEq

/-- The user message appended at the start of `handleSend`. -/
def userMsgOf (a : AskRun) : Msg :=
  { id := a.sendTime, role := .user, content := a.question, question := none, sources := [] }

/-- The assistant message appended when the exchange settles: on success the
answer with its sources; on failure the synthetic error text with empty
sources. -/
def botMsgOf (a : AskRun) : Msg :=
  match a.outcome with
  | .success ans srcs =>
      { id := a.doneTime + 1, role := .assistant, content := ans,
        question := some a.question, sources := srcs }
  | .failure e =>
      { id := a.doneTime + 1, role := .assistant,
        content := "Sorry, I encountered an error: " ++ e ++ ". Please try again.",
        question := none, sources := [] }

/-- `handleSend` run to completion: user message appended, then the
assistant (or synthetic error) message, `loading` cleared in `finally`. -/
def handleSend (s : ChatState) (a : AskRun) : ChatState :=
  { messages := s.messages ++ [userMsgOf a, botMsgOf a], loading := false }

/-- The chat surface as mounted: no messages, not loading. -/
def chatInit : ChatState := { messages := [], loading := false }

/-- A sequence of completed exchanges, run in order. -/
def runAsks (s : ChatState) (asks : List AskRun) : ChatState :=
  asks.foldl handleSend s

/-- Real-time consistency of a run of exchanges: within each exchange the
completion clock reading is no earlier than the send reading, and each
exchange is sent no earlier than the previous one completed
(`Date.now()` is non-decreasing). -/
def timesValid : List AskRun → Bool
  | [] => true
  | [a] => decide (a.sendTime ≤ a.doneTime)
  | a :: b :: rest =>
      decide (a.sendTime ≤ a.doneTime) && decide (a.doneTime ≤ b.sendTime) &&
        timesValid (b :: rest)

/-- A stronger clock discipline: additionally, each exchange is sent at
least 2 ms after the previous one completed. -/
def timesSeparated : List AskRun → Bool
  | [] => true
  | [a] => decide (a.sendTime ≤ a.doneTime)
  | a :: b :: rest =>
      decide (a.sendTime ≤ a.doneTime) && decide (a.doneTime + 2 ≤ b.sendTime) &&
        timesSeparated (b :: rest)

/-- The transcript after a run is the initial transcript followed by the
user/assistant pair of each exchange in order. -/
theorem runAsks_messages (s : ChatState) (asks : List AskRun) :
    (runAsks s asks).messages =
      s.messages ++ asks.flatMap (fun a => [userMsgOf a, botMsgOf a]) := by
  induction asks generalizing s with
  | nil => simp [runAsks]
  | cons a rest ih =>
      simp [runAsks, List.foldl_cons, List.flatMap_cons] at *
      rw [ih]
      simp [handleSend]

/-- The ids of the messages a run produces from an empty transcript. -/
theorem runAsks_ids (asks : List AskRun) :
    (runAsks chatInit asks).messages.map (fun m => m.id) =
      asks.flatMap (fun a => [a.sendTime, a.doneTime + 1]) := by
  rw [runAsks_messages]
  simp [chatInit, List.map_flatMap, userMsgOf, botMsgOf]
  congr 1
  funext a
  cases a.outcome <;> simp [botMsgOf]

/-- Under the separated clock discipline, the flattened id sequence of a
run is strictly increasing link-to-link. -/
theorem askIds_chain (asks : List AskRun) (hsep : timesSeparated asks = true) :
    List.Chain' (· < ·) (asks.flatMap (fun a => [a.sendTime, a.doneTime + 1])) := by
  induction asks with
  | nil => simp
  | cons a rest ih =>
      cases rest with
      | nil =>
          simp only [timesSeparated, decide_eq_true_eq] at hsep
          simp [List.flatMap_cons, List.Chain']
          omega
      | cons b rest' =>
          simp only [timesSeparated, Bool.and_eq_true, decide_eq_true_eq] at hsep
          obtain ⟨⟨h1, h2⟩, h3⟩ := hsep
          have ihc := ih h3
          simp only [List.flatMap_cons] at ihc ⊢
          refine List.Chain'.cons (by omega) ?_
          refine List.Chain'.cons (by omega) ?_
          exact ihc

/-- C2 counterexample: two exchanges with real-time-consistent clock
readings (`Date.now()` is only non-decreasing): the first is sent and
completes at millisecond 0, the second at millisecond 1.  The assigned ids
are `[0, 1, 1, 2]` — the first exchange's assistant message and the second
exchange's user message collide, so ids are not pairwise distinct within
the session. -/
theorem message_ids_can_collide :
    timesValid [⟨"q1", 0, 0, .success "a" []⟩, ⟨"q2", 1, 1, .success "b" []⟩] = true ∧
    (runAsks chatInit [⟨"q1", 0, 0, .success "a" []⟩, ⟨"q2", 1, 1, .success "b" []⟩]).messages.map
      (fun m => m.id) = [0, 1, 1, 2] ∧
    ¬ ((runAsks chatInit [⟨"q1", 0, 0, .success "a" []⟩,
        ⟨"q2", 1, 1, .success "b" []⟩]).messages.map (fun m => m.id)).Pairwise (· ≠ ·) := by
  decide

/-- C2 (amended): message ids are the `Date.now()` readings (user message)
and completion reading plus one (assistant message); within one exchange
they are always distinct and ordered, but across exchanges distinctness
holds only under a clock-separation hypothesis: if every exchange is sent
at least 2 ms after the previous one completed, the id sequence of the
whole session is strictly increasing in creation order — hence pairwise
distinct, and sorting by id recovers creation order. -/
theorem message_ids_strictly_increasing (asks : List AskRun)
    (hsep : timesSeparated asks = true) :
    ((runAsks chatInit asks).messages.map (fun m => m.id)).Pairwise (· < ·) := by
  rw [runAsks_ids]
  exact (List.chain'_iff_pairwise).mp (askIds_chain asks hsep)

/-- Witness for `message_ids_strictly_increasing`: two exchanges separated
by 2 ms produce the strictly increasing ids `[0, 1, 3, 5]`. -/
theorem message_ids_strictly_increasing_witness :
    ((runAsks chatInit [⟨"q1", 0, 0, .success "a" []⟩,
        ⟨"q2", 2, 4, .success "b" []⟩]).messages.map (fun m => m.id)).Pairwise (· < ·) :=
  message_ids_strictly_increasing
    [⟨"q1", 0, 0, .success "a" []⟩, ⟨"q2", 2, 4, .success "b" []⟩] (by decide)

/-- C8: when the answer-service call fails, the transcript gains exactly the
user message and a synthetic assistant message whose text carries the error
and whose citation list is empty; `loading` is cleared and every previously
appended message is untouched (the old transcript is a strict prefix), so
the session remains usable. -/
theorem ask_failure_recovery (s : ChatState) (q e : String) (t1 t2 : Nat) :
    (handleSend s ⟨q, t1, t2, .failure e⟩).loading = false ∧
    (handleSend s ⟨q, t1, t2, .failure e⟩).messages =
      s.messages ++
        [{ id := t1, role := .user, content := q, question := none, sources := [] },
         { id := t2 + 1, role := .assistant,
           content := "Sorry, I encountered an error: " ++ e ++ ". Please try again.",
           question := none, sources := [] }] ∧
    s.messages.IsPrefix (handleSend s ⟨q, t1, t2, .failure e⟩).messages := by
  refine ⟨rfl, rfl, ?_⟩
  exact ⟨_, rfl⟩

/-! ## Bookmark store (`BookmarkContext.jsx`)

State: the `bookmarks` list.  `addBookmark(message)` is a no-op when an
entry with the same id exists (`prev.some(b => b.id === message.id)`),
otherwise appends `{...message, bookmarkedAt: Date.now()}`.
`removeBookmark(messageId)` filters by `b.id !== messageId`;
`isBookmarked(messageId)` is `bookmarks.some(b => b.id === messageId)`.
`BookmarkButton.handleClick` removes when bookmarked, adds otherwise.
-/

/-- The message payload `BookmarkButton` receives from `Message`:
`{id, question, answer, sources}`. -/
structure BMessage where
  id : Nat
  question : Option String
  answer : String
  sources : List Citation
  deriving DecidableEq

/-- A stored bookmark: the message snapshot plus `bookmarkedAt`. -/
structure Bookmark where
  id : Nat
  question : Option String
  answer : String
  sources : List Citation
  bookmarkedAt : Nat
  deriving DecidableEq

/-- The snapshot `{...message, bookmarkedAt: now}`. -/
def mkBookmark (m : BMessage) (now : Nat) : Bookmark :=
  { id := m.id, question := m.question, answer := m.answer,
    sources := m.sources, bookmarkedAt := now }

/-- `addBookmark`: no-op on a duplicate id, otherwise append the snapshot. -/
def addBookmark (bs : List Bookmark) (m : BMessage) (now : Nat) : List Bookmark :=
  if bs.any (fun b => b.id == m.id) then bs else bs ++ [mkBookmark m now]

/-- `removeBookmark(messageId)`. -/
def removeBookmark (bs : List Bookmark) (i : Nat) : List Bookmark :=
  bs.filter (fun b => b.id != i)

/-- `isBookmarked(messageId)`. -/
def isBookmarked (bs : List Bookmark) (i : Nat) : Bool :=
  bs.any (fun b => b.id == i)

/-- `BookmarkButton.handleClick`: remove when bookmarked, add otherwise. -/
def bookmarkToggle (bs : List Bookmark) (m : BMessage) (now : Nat) : List Bookmark :=
  if isBookmarked bs m.id then removeBookmark bs m.id else addBookmark bs m now

/-- A sequence of `addBookmark` calls, each with its own clock reading. -/
def addAll (bs : List Bookmark) (ms : List (BMessage × Nat)) : List Bookmark :=
  ms.foldl (fun acc p => addBookmark acc p.1 p.2) bs

/-- The id column of the store. -/
def bookmarkIds (bs : List Bookmark) : List Nat := bs.map (fun b => b.id)

theorem isBookmarked_iff_mem (bs : List Bookmark) (i : Nat) :
    isBookmarked bs i = true ↔ i ∈ bookmarkIds bs := by
  simp only [isBookmarked, bookmarkIds, List.any_eq_true, beq_iff_eq, List.mem_map]

theorem find?_eq_none_of_not_bookmarked (bs : List Bookmark) (i : Nat)
    (h : isBookmarked bs i = false) :
    bs.find? (fun b => b.id == i) = none := by
  rw [List.find?_eq_none]
  intro b hb
  simp only [isBookmarked, List.any_eq_false] at h
  exact h b hb

theorem addBookmark_ids (bs : List Bookmark) (m : BMessage) (t : Nat) :
    bookmarkIds (addBookmark bs m t) =
      if m.id ∈ bookmarkIds bs then bookmarkIds bs else bookmarkIds bs ++ [m.id] := by
  by_cases h : m.id ∈ bookmarkIds bs
  · have hg : (bs.any fun b => b.id == m.id) = true := (isBookmarked_iff_mem bs m.id).mpr h
    rw [if_pos h]
    unfold addBookmark
    rw [if_pos hg]
  · have hg : (bs.any fun b => b.id == m.id) = false := by
      rcases hb : bs.any fun b => b.id == m.id
      · rfl
      · exact absurd ((isBookmarked_iff_mem bs m.id).mp hb) h
    rw [if_neg h]
    unfold addBookmark
    rw [if_neg (by simp [hg])]
    simp [bookmarkIds, mkBookmark]

theorem addBookmark_ids_nodup (bs : List Bookmark) (m : BMessage) (t : Nat)
    (h : (bookmarkIds bs).Nodup) : (bookmarkIds (addBookmark bs m t)).Nodup := by
  rw [addBookmark_ids]
  by_cases hm : m.id ∈ bookmarkIds bs
  · simpa [hm] using h
  · simp only [hm, if_false]
    simpa [List.nodup_append] using ⟨h, hm⟩

theorem addBookmark_ids_toFinset (bs : List Bookmark) (m : BMessage) (t : Nat) :
    (bookmarkIds (addBookmark bs m t)).toFinset = insert m.id (bookmarkIds bs).toFinset := by
  rw [addBookmark_ids]
  by_cases hm : m.id ∈ bookmarkIds bs
  · simp only [hm, if_true]
    exact (Finset.insert_eq_self.mpr (List.mem_toFinset.mpr hm)).symm
  · simp only [hm, if_false, List.toFinset_append, List.toFinset_cons, List.toFinset_nil]
    rw [Finset.union_comm]
    simp [Finset.insert_eq]

theorem addAll_ids (ms : List (BMessage × Nat)) : ∀ bs : List Bookmark,
    (bookmarkIds bs).Nodup →
    (bookmarkIds (addAll bs ms)).Nodup ∧
    (bookmarkIds (addAll bs ms)).toFinset =
      (bookmarkIds bs).toFinset ∪ (ms.map (fun p => p.1.id)).toFinset := by
  induction ms with
  | nil => intro bs h; simpa [addAll] using h
  | cons p rest ih =>
      intro bs h
      have step := ih (addBookmark bs p.1 p.2) (addBookmark_ids_nodup bs p.1 p.2 h)
      refine ⟨step.1, ?_⟩
      have : addAll bs (p :: rest) = addAll (addBookmark bs p.1 p.2) rest := rfl
      rw [this, step.2, addBookmark_ids_toFinset]
      simp [Finset.insert_union, Finset.union_insert]

theorem find?_some_of_bookmarked (bs : List Bookmark) (i : Nat)
    (h : isBookmarked bs i = true) :
    ∃ x, bs.find? (fun b => b.id == i) = some x := by
  rcases hx : bs.find? (fun b => b.id == i) with _ | x
  · obtain ⟨c, hc, hcid⟩ : ∃ c ∈ bs, c.id = i := by
      simpa [isBookmarked, List.any_eq_true] using h
    have := List.find?_eq_none.mp hx c hc
    simp [hcid] at this
  · exact ⟨x, hx⟩

theorem find?_addAll (ms : List (BMessage × Nat)) : ∀ (bs : List Bookmark) (i : Nat),
    (addAll bs ms).find? (fun b => b.id == i) =
      (bs.find? (fun b => b.id == i)).or
        ((ms.find? (fun p => p.1.id == i)).map (fun p => mkBookmark p.1 p.2)) := by
  induction ms with
  | nil => intro bs i; simp [addAll]
  | cons p rest ih =>
      intro bs i
      have hstep : addAll bs (p :: rest) = addAll (addBookmark bs p.1 p.2) rest := rfl
      rw [hstep, ih]
      by_cases hg : bs.any (fun b => b.id == p.1.id)
      · -- duplicate id: the add is a no-op
        have hadd : addBookmark bs p.1 p.2 = bs := by simp [addBookmark, hg]
        rw [hadd]
        by_cases hpi : p.1.id = i
        · obtain ⟨x, hx⟩ := find?_some_of_bookmarked bs i (by
            subst hpi; simpa [isBookmarked] using hg)
          rw [hx]
          rfl
        · have hq : List.find? (fun q : BMessage × Nat => q.1.id == i) (p :: rest) =
              List.find? (fun q : BMessage × Nat => q.1.id == i) rest :=
            List.find?_cons_of_neg _ (by simpa using hpi)
          rw [hq]
      · -- fresh id: the snapshot is appended
        have hadd : addBookmark bs p.1 p.2 = bs ++ [mkBookmark p.1 p.2] := by
          simp [addBookmark, hg]
        rw [hadd, List.find?_append]
        by_cases hpi : p.1.id = i
        · have hnone : bs.find? (fun b => b.id == i) = none := by
            apply find?_eq_none_of_not_bookmarked
            subst hpi
            simpa [isBookmarked] using hg
          have hone : ([mkBookmark p.1 p.2].find? (fun b => b.id == i)) =
              some (mkBookmark p.1 p.2) := by
            apply List.find?_cons_of_pos
            simp [mkBookmark, hpi]
          have hq : List.find? (fun q : BMessage × Nat => q.1.id == i) (p :: rest) = some p :=
            List.find?_cons_of_pos _ (by simpa using hpi)
          rw [hnone, hone, hq]
          rfl
        · have hone : ([mkBookmark p.1 p.2].find? (fun b => b.id == i)) = none := by
            apply List.find?_eq_none.mpr
            simp [mkBookmark, hpi]
          have hq : List.find? (fun q : BMessage × Nat => q.1.id == i) (p :: rest) =
              List.find? (fun q : BMessage × Nat => q.1.id == i) rest :=
            List.find?_cons_of_neg _ (by simpa using hpi)
          rw [hone, hq, Option.or_none]

/-- C5: for every sequence of `addBookmark` calls, possibly repeating ids,
the store's size equals the number of distinct ids added, and for each id
the entry retained is the snapshot created by the first add with that id
(later adds with the same id are no-ops). -/
theorem bookmark_add_first_wins (ms : List (BMessage × Nat)) :
    (addAll [] ms).length = ((ms.map (fun p => p.1.id)).toFinset).card ∧
    ∀ i : Nat, (addAll [] ms).find? (fun b => b.id == i) =
      (ms.find? (fun p => p.1.id == i)).map (fun p => mkBookmark p.1 p.2) := by
  constructor
  · obtain ⟨hnd, hfs⟩ := addAll_ids ms [] (by simp [bookmarkIds])
    have hlen : (bookmarkIds (addAll [] ms)).length = (addAll [] ms).length := by
      simp [bookmarkIds]
    rw [← hlen, ← List.toFinset_card_of_nodup hnd, hfs]
    simp [bookmarkIds]
  · intro i
    simpa using find?_addAll ms [] i

theorem any_filter_ne (bs : List Bookmark) (i j : Nat) (h : j ≠ i) :
    (bs.filter (fun b => b.id != i)).any (fun b => b.id == j) =
      bs.any (fun b => b.id == j) := by
  induction bs with
  | nil => rfl
  | cons b rest ih =>
      by_cases hb : b.id = i
      · have h1 : (b.id != i) = false := by simp [hb]
        have h2 : (b.id == j) = false := by
          simp only [beq_eq_false_iff_ne, ne_eq, hb]
          omega
        simp only [List.filter_cons, h1, if_false, Bool.false_eq_true, List.any_cons, h2,
          Bool.false_or, ih]
      · have h1 : (b.id != i) = true := by simp [hb]
        simp only [List.filter_cons, h1, if_true, List.any_cons, ih]

theorem isBookmarked_removeBookmark_self (bs : List Bookmark) (i : Nat) :
    isBookmarked (removeBookmark bs i) i = false := by
  rw [Bool.eq_false_iff]
  intro hc
  simp only [isBookmarked, removeBookmark, List.any_eq_true, beq_iff_eq] at hc
  obtain ⟨b, hb, hbi⟩ := hc
  have := (List.mem_filter.mp hb).2
  simp [hbi] at this

theorem isBookmarked_removeBookmark_other (bs : List Bookmark) (i j : Nat) (h : j ≠ i) :
    isBookmarked (removeBookmark bs i) j = isBookmarked bs j :=
  any_filter_ne bs i j h

theorem isBookmarked_addBookmark_self (bs : List Bookmark) (m : BMessage) (t : Nat) :
    isBookmarked (addBookmark bs m t) m.id = true := by
  unfold addBookmark
  by_cases hg : (bs.any fun b => b.id == m.id) = true
  · rw [if_pos hg]
    exact hg
  · rw [if_neg hg]
    simp [isBookmarked, mkBookmark]

theorem isBookmarked_addBookmark_other (bs : List Bookmark) (m : BMessage) (t : Nat)
    (j : Nat) (h : j ≠ m.id) :
    isBookmarked (addBookmark bs m t) j = isBookmarked bs j := by
  unfold addBookmark
  by_cases hg : (bs.any fun b => b.id == m.id) = true
  · rw [if_pos hg]
  · rw [if_neg hg]
    have hmk : ((mkBookmark m t).id == j) = false := by
      simp only [mkBookmark, beq_eq_false_iff_ne, ne_eq]
      omega
    simp [isBookmarked, hmk]

/-- C10: one click of the bookmark button flips membership of the message's
id: when bookmarked it removes the entry, otherwise it appends the snapshot
carrying the message's id, question, answer and sources; membership of every
other id is untouched, and two consecutive clicks restore the original
membership of every id. -/
theorem bookmark_click_toggles (bs : List Bookmark) (m : BMessage) (t t' : Nat) (j : Nat) :
    isBookmarked (bookmarkToggle bs m t) m.id = !(isBookmarked bs m.id) ∧
    (isBookmarked bs m.id = false → bookmarkToggle bs m t = bs ++ [mkBookmark m t]) ∧
    (j ≠ m.id → isBookmarked (bookmarkToggle bs m t) j = isBookmarked bs j) ∧
    isBookmarked (bookmarkToggle (bookmarkToggle bs m t) m t') j = isBookmarked bs j := by
  by_cases hb : isBookmarked bs m.id = true
  · have ht1 : bookmarkToggle bs m t = removeBookmark bs m.id := by
      simp [bookmarkToggle, hb]
    have hafter : isBookmarked (removeBookmark bs m.id) m.id = false :=
      isBookmarked_removeBookmark_self bs m.id
    have ht2 : bookmarkToggle (removeBookmark bs m.id) m t' =
        addBookmark (removeBookmark bs m.id) m t' := by
      simp [bookmarkToggle, hafter]
    refine ⟨?_, ?_, ?_, ?_⟩
    · rw [ht1, hafter, hb]
      rfl
    · intro hcontra
      rw [hcontra] at hb
      exact Bool.noConfusion hb
    · intro hj
      rw [ht1]
      exact isBookmarked_removeBookmark_other bs m.id j hj
    · rw [ht1, ht2]
      by_cases hj : j = m.id
      · subst hj
        rw [isBookmarked_addBookmark_self, hb]
      · rw [isBookmarked_addBookmark_other _ _ _ _ hj,
          isBookmarked_removeBookmark_other _ _ _ hj]
  · have hbf : isBookmarked bs m.id = false := by
      rcases hx : isBookmarked bs m.id
      · rfl
      · exact absurd hx hb
    have hgf : (bs.any fun b => b.id == m.id) = false := hbf
    have ht1 : bookmarkToggle bs m t = addBookmark bs m t := by
      simp [bookmarkToggle, hbf]
    have hadd : addBookmark bs m t = bs ++ [mkBookmark m t] := by
      unfold addBookmark
      rw [if_neg (by simp [hgf])]
    have hself : isBookmarked (addBookmark bs m t) m.id = true :=
      isBookmarked_addBookmark_self bs m t
    have ht2 : bookmarkToggle (addBookmark bs m t) m t' =
        removeBookmark (addBookmark bs m t) m.id := by
      simp [bookmarkToggle, hself]
    refine ⟨?_, ?_, ?_, ?_⟩
    · rw [ht1, hself, hbf]
      rfl
    · intro _
      rw [ht1, hadd]
    · intro hj
      rw [ht1]
      exact isBookmarked_addBookmark_other bs m t j hj
    · rw [ht1, ht2]
      by_cases hj : j = m.id
      · subst hj
        rw [isBookmarked_removeBookmark_self, hbf]
      · rw [isBookmarked_removeBookmark_other _ _ _ hj,
          isBookmarked_addBookmark_other _ _ _ _ hj]

/-- An assistant message used to exercise the toggle. -/
def bmEx : BMessage := { id := 1, question := some "q", answer := "a", sources := [] }

/-- Witness for `bookmark_click_toggles`: toggling `bmEx` on an empty store
adds the snapshot, flips membership of id 1, leaves id 2 untouched, and two
clicks restore the empty membership. -/
theorem bookmark_click_toggles_witness :
    isBookmarked (bookmarkToggle [] bmEx 10) bmEx.id = !(isBookmarked [] bmEx.id) ∧
    bookmarkToggle [] bmEx 10 = [] ++ [mkBookmark bmEx 10] ∧
    isBookmarked (bookmarkToggle [] bmEx 10) 2 = isBookmarked [] 2 ∧
    isBookmarked (bookmarkToggle (bookmarkToggle [] bmEx 10) bmEx 20) 2 = isBookmarked [] 2 :=
  ⟨(bookmark_click_toggles [] bmEx 10 20 2).1,
   (bookmark_click_toggles [] bmEx 10 20 2).2.1 (by decide),
   (bookmark_click_toggles [] bmEx 10 20 2).2.2.1 (by decide),
   (bookmark_click_toggles [] bmEx 10 20 2).2.2.2⟩

end QueryVault
